import Mathlib

/-!
The lnav session header.

A shallow embedding of `lnav.hh`: the input modes, the view kinds, the
minimum-level log filter `level_filter` and the parts of the session record
`_lnav_data` that hold the mode, the view stack and the per-view search slots.

Declarations that `lnav.hh` only uses (the `logline` record and its level
constants from `logfile.hh`, the filter base class, the view and highlighter
classes) are either taken as parameters or modelled from the design text; each
such definition says so in its comment.  The functions `toggle_view` and
`execute_search` are declared in the header and defined elsewhere; they are
modelled from the design text as well, `toggle_view` only where the design text
determines its result.
-/

namespace Lnav

/-! ## Enumerations of the header -/

/-- The command modes that are available while viewing a file. -/
inductive ln_mode_t
  | LNM_PAGING
  | LNM_COMMAND
  | LNM_SEARCH
  | LNM_CAPTURE
  | LNM_SQL
  deriving DecidableEq, Repr

/-- Numeric value of a mode enumerator: no enumerator has an initialiser, so
the first is 0 and each next one is its predecessor plus one. -/
def ln_mode_t.toNat : ln_mode_t → Nat
  | .LNM_PAGING => 0
  | .LNM_COMMAND => 1
  | .LNM_SEARCH => 2
  | .LNM_CAPTURE => 3
  | .LNM_SQL => 4

/-- The enumerators of `ln_mode_t` in declaration order. -/
def ln_mode_t.enumerators : List ln_mode_t :=
  [.LNM_PAGING, .LNM_COMMAND, .LNM_SEARCH, .LNM_CAPTURE, .LNM_SQL]

/-- The mode a stored integer stands for, if it is the value of an enumerator. -/
def ln_mode_t.ofNat? (n : Nat) : Option ln_mode_t :=
  ln_mode_t.enumerators.find? (fun m => m.toNat == n)

/-- The different views available, with the closing sentinel `LNV__MAX`. -/
inductive lnav_view_t
  | LNV_LOG
  | LNV_TEXT
  | LNV_HELP
  | LNV_HISTOGRAM
  | LNV_GRAPH
  | LNV_DB
  | LNV_EXAMPLE
  | LNV_SCHEMA
  | LNV__MAX
  deriving DecidableEq, Repr

/-- Numeric value of a view enumerator (declaration order, starting at 0). -/
def lnav_view_t.toNat : lnav_view_t → Nat
  | .LNV_LOG => 0
  | .LNV_TEXT => 1
  | .LNV_HELP => 2
  | .LNV_HISTOGRAM => 3
  | .LNV_GRAPH => 4
  | .LNV_DB => 5
  | .LNV_EXAMPLE => 6
  | .LNV_SCHEMA => 7
  | .LNV__MAX => 8

/-- The view kinds: every enumerator of `lnav_view_t` that precedes the
sentinel `LNV__MAX`, in declaration order. -/
def lnav_view_t.kinds : List lnav_view_t :=
  [.LNV_LOG, .LNV_TEXT, .LNV_HELP, .LNV_HISTOGRAM, .LNV_GRAPH, .LNV_DB,
   .LNV_EXAMPLE, .LNV_SCHEMA]

/-- A C array `T a[LNV__MAX]`: one slot for each index below `LNV__MAX`. -/
abbrev per_view (α : Type) : Type := Fin lnav_view_t.LNV__MAX.toNat → α

/-- The slot `a[view]` a view value selects in a per-view array; `none` when
the value is not below the array bound (the access would be out of range). -/
def lnav_view_t.slot? (view : lnav_view_t) : Option (Fin lnav_view_t.LNV__MAX.toNat) :=
  if h : view.toNat < lnav_view_t.LNV__MAX.toNat then some ⟨view.toNat, h⟩ else none

/-! ## The level filter -/

/-- Values of `logline::level_t`.  The enumeration is declared in `logfile.hh`;
its enumerators are non-negative, so a level is a natural number, promoted to
`int` (here `Int`) inside an arithmetic expression.  The constants
`LEVEL_UNKNOWN` and `LEVEL__FLAGS` and the table `level_names` are parameters of
the definitions that use them. -/
abbrev level_t : Type := Nat

/-- Modelled from the spec: the mode of a filter (INCLUDE or EXCLUDE), an
enumeration of the base class `logfile_filter` in `logfile.hh`. -/
inductive filter_type_t
  | INCLUDE
  | EXCLUDE
  deriving DecidableEq, Repr

/-- Modelled from the spec: the base class `logfile_filter` of `logfile.hh`, of
which the header shows the constructor call `logfile_filter(EXCLUDE, "")`: a
mode and a filter id. -/
structure logfile_filter where
  mode : filter_type_t
  id : String
  deriving DecidableEq, Repr

/-- Modelled from the spec: the log record (`logline` of `logfile.hh`) with the
attributes the design text lists besides the raw text, which `matches` receives
as a separate argument. -/
structure logline where
  ll_file : Nat
  ll_offset : Nat
  ll_time : Option Nat
  ll_level : level_t
  deriving DecidableEq, Repr

/-- The accessor `logline::get_level`. -/
def logline.get_level (ll : logline) : level_t := ll.ll_level

/-- The class `level_filter`: a `logfile_filter` with a minimum level. -/
structure level_filter extends logfile_filter where
  lf_min_level : level_t
  deriving DecidableEq, Repr

/-- The constructor `level_filter()`. -/
def level_filter.new (LEVEL_UNKNOWN : level_t) : level_filter :=
  { mode := .EXCLUDE, id := "", lf_min_level := LEVEL_UNKNOWN }

/-- The method `level_filter::matches`.  It is not `const`, so it is written in
state-passing form: the result and the filter after the call.  The operands of
`&` and `<` are promoted to `int`; the bitwise operations of `int` agree with
those of `Int` on values in range, and they cannot overflow. -/
def level_filter.matches (LEVEL__FLAGS : level_t) (self : level_filter)
    (ll : logline) (_line : String) : Bool × level_filter :=
  (decide (Int.land (ll.get_level : Int) (~~~(LEVEL__FLAGS : Int)) < (self.lf_min_level : Int)),
   self)

/-- The method `level_filter::to_command`; it only reads the filter.  The table
lookup `level_names[lf_min_level]` is defined only inside the table, hence
`Option`. -/
def level_filter.to_command (level_names : List String) (self : level_filter) :
    Option String :=
  match level_names[self.lf_min_level]? with
  | some name => some ("set-min-log-level " ++ name)
  | none => none

/-- Modelled from the spec: how the aggregator applies one filter to a record
(the code is outside this header): an EXCLUDE filter rejects the records it
matches, an INCLUDE filter requires a match. -/
def level_filter.passes (LEVEL__FLAGS : level_t) (self : level_filter)
    (ll : logline) (line : String) : Bool :=
  match self.mode with
  | .EXCLUDE => !(self.matches LEVEL__FLAGS ll line).1
  | .INCLUDE => (self.matches LEVEL__FLAGS ll line).1

/-- The masked severity in words, "the level with the `LEVEL__FLAGS` bits
cleared": the flag bits that are set in the level are toggled off. -/
def without_flags (LEVEL__FLAGS : level_t) (L : level_t) : level_t :=
  L ^^^ (L &&& LEVEL__FLAGS)

/-! ## The session record -/

/-- A value of type `textview_curses *`: the address of a view. -/
abbrev textview_ptr : Type := Nat

/-- Modelled from the spec: the view descriptor (`textview_curses`, declared
outside this header): current scroll position and last search anchor line. -/
structure textview_curses where
  top : Nat
  search_anchor : Nat
  deriving DecidableEq, Repr

/-- Modelled from the spec: a highlight job (`grep_highlighter`, declared
outside this header): owning view, search pattern, child-process handle, the
matched line numbers found so far and the completion flag. -/
structure grep_highlighter where
  view : lnav_view_t
  pattern : String
  child : Nat
  matched : List Nat
  done : Bool
  deriving DecidableEq, Repr

/-- The fields of `struct _lnav_data` that hold the input mode, the view stack
(head of the list is the top), the views, the per-view search children (a null
`auto_ptr` is `none`), the level filter and the per-view last search strings.
The other fields of the record play no part below. -/
structure _lnav_data where
  ld_mode : ln_mode_t
  ld_view_stack : List textview_ptr
  ld_views : per_view textview_curses
  ld_search_child : per_view (Option grep_highlighter)
  ld_level_filter : level_filter
  ld_last_search : per_view String

/-- A session record in paging mode with the given view stack, every view at
line 0, no search child, the default level filter for `LEVEL_UNKNOWN = 0` and no
last search: a concrete record on which the operations can be run. -/
def lnav_data_with_stack (stack : List textview_ptr) : _lnav_data :=
  { ld_mode := .LNM_PAGING
    ld_view_stack := stack
    ld_views := fun _ => { top := 0, search_anchor := 0 }
    ld_search_child := fun _ => none
    ld_level_filter := level_filter.new 0
    ld_last_search := fun _ => "" }

/-! ## View focus -/

/-- Modelled from the spec: `toggle_view`, declared in the header and defined
elsewhere.  The design text says that it "pops the stack if `view` is already on
top, else pushes it" and that the view stack is "never empty".  The result is
given wherever these statements determine it.  They conflict when the toggled
view is the only view on the stack (popping it would leave the stack empty), and
they say nothing about an empty stack; in these two cases the model gives no
result (`none`).  The design text does not say what the boolean result is; only
the effect on the session record is modelled. -/
def toggle_view (ld : _lnav_data) (toggle_tc : textview_ptr) : Option _lnav_data :=
  match ld.ld_view_stack with
  | [] => none
  | [tc] =>
    if tc = toggle_tc then none
    else some { ld with ld_view_stack := [toggle_tc, tc] }
  | tc :: next :: rest =>
    if tc = toggle_tc then some { ld with ld_view_stack := next :: rest }
    else some { ld with ld_view_stack := toggle_tc :: tc :: next :: rest }

/-- A sequence of `toggle_view` calls, first call first; `none` as soon as one
call has no result. -/
def toggle_views : _lnav_data → List textview_ptr → Option _lnav_data
  | ld, [] => some ld
  | ld, c :: cs =>
    match toggle_view ld c with
    | some ld1 => toggle_views ld1 cs
    | none => none

/-- A total operation on plain view stacks is a reading of `toggle_view` when it
gives the result of the model wherever the model has one; what it does with the
only view of a stack, and with an empty stack, is its own choice. -/
def reading_of_toggle_view (tv : List textview_ptr → textview_ptr → List textview_ptr) : Prop :=
  ∀ (ld ld1 : _lnav_data) (toggle_tc : textview_ptr),
    toggle_view ld toggle_tc = some ld1 → tv ld.ld_view_stack toggle_tc = ld1.ld_view_stack

/-- The two total readings of a toggle on a plain view stack.  Both pop a view
on top that has another view beneath it and push a view that is not on top; on
a stack that holds the toggled view alone, the reading `keep_last = true` leaves
the stack as it is and the reading `keep_last = false` pops the view. -/
def toggle_stack (keep_last : Bool) (stack : List textview_ptr) (toggle_tc : textview_ptr) :
    List textview_ptr :=
  match stack with
  | [] => [toggle_tc]
  | [tc] =>
    if tc = toggle_tc then (if keep_last then [tc] else [])
    else [toggle_tc, tc]
  | tc :: next :: rest =>
    if tc = toggle_tc then next :: rest
    else toggle_tc :: tc :: next :: rest

/-! ## Search dispatch -/

/-- Modelled from the spec: the session as the search dispatch sees it: the
session record, the registry of live highlight jobs (the child processes that
were spawned and not yet terminated) and the next unused process handle. -/
structure search_session where
  ld : _lnav_data
  live : List grep_highlighter
  next_child : Nat

/-- Outcome of a search dispatch. -/
inductive search_status
  | ok
  | InvalidPattern
  deriving DecidableEq, Repr

/-- Modelled from the spec: a session at startup, before any search was
issued: every search slot is null and no job is live. -/
def search_session.startup (ld : _lnav_data) : search_session :=
  { ld := { ld with ld_search_child := fun _ => none }, live := [], next_child := 0 }

/-- Modelled from the spec: cancelling the job of a view slot: the process of
the job held by the slot is terminated (its handle leaves the registry) and the
slot is cleared; nothing happens when the slot is null. -/
def cancel_search (s : search_session) (i : Fin lnav_view_t.LNV__MAX.toNat) : search_session :=
  match s.ld.ld_search_child i with
  | none => s
  | some job =>
    { s with
      ld := { s.ld with ld_search_child := Function.update s.ld.ld_search_child i none }
      live := s.live.filter (fun j => j.child != job.child) }

/-- Modelled from the spec: spawning a job bound to a view: a fresh child
process, stored in the view slot and entered in the registry; the pattern is
recorded as the last search of the view and the search anchor of the view is
reset to its scroll position. -/
def spawn_search (s : search_session) (view : lnav_view_t)
    (i : Fin lnav_view_t.LNV__MAX.toNat) (regex : String) : search_session :=
  let job : grep_highlighter :=
    { view := view, pattern := regex, child := s.next_child, matched := [], done := false }
  { ld :=
      { s.ld with
        ld_search_child := Function.update s.ld.ld_search_child i (some job)
        ld_last_search := Function.update s.ld.ld_last_search i regex
        ld_views := Function.update s.ld.ld_views i
          { s.ld.ld_views i with search_anchor := (s.ld.ld_views i).top } }
    live := job :: s.live
    next_child := s.next_child + 1 }

/-- Modelled from the spec: `execute_search(view, pattern)`, declared in the
header and defined elsewhere: an empty pattern cancels and clears the job of the
view; otherwise the existing job is cancelled, the pattern is validated by the
regular-expression engine `compiles` (a parameter), and a new job is spawned.
The result is `none` when `view` selects no slot of the per-view arrays. -/
def execute_search (compiles : String → Bool) (s : search_session)
    (view : lnav_view_t) (regex : String) : Option (search_session × search_status) :=
  match view.slot? with
  | none => none
  | some i =>
    if regex = "" then some (cancel_search s i, .ok)
    else
      let s1 := cancel_search s i
      if compiles regex then some (spawn_search s1 view i regex, .ok)
      else some (s1, .InvalidPattern)

/-- A sequence of `execute_search` calls, first call first; `none` as soon as
one call is out of range. -/
def execute_searches (compiles : String → Bool) :
    search_session → List (lnav_view_t × String) → Option search_session
  | s, [] => some s
  | s, (view, regex) :: rest =>
    match execute_search compiles s view regex with
    | some (s1, _) => execute_searches compiles s1 rest
    | none => none

/-- The number of live highlight jobs owned by a view. -/
def live_jobs (s : search_session) (view : lnav_view_t) : Nat :=
  (s.live.filter (fun j => j.view == view)).length

/-- The registry and the slots agree: the live jobs of a view are exactly the
job held by its slot, no live job is owned by the sentinel, and the handles of
the live jobs are distinct and below the next unused handle. -/
def search_consistent (s : search_session) : Prop :=
  (∀ view i, view.slot? = some i →
      s.live.filter (fun j => j.view == view) = (s.ld.ld_search_child i).toList)
  ∧ (∀ j ∈ s.live, j.view ≠ .LNV__MAX)
  ∧ (∀ j ∈ s.live, j.child < s.next_child)
  ∧ (s.live.map (fun j => j.child)).Nodup


/-! ## Lemmas on the masked level -/

theorem land_not_eq_without_flags (LEVEL__FLAGS L : level_t) :
    Int.land (L : Int) (~~~(LEVEL__FLAGS : Int)) = ((without_flags LEVEL__FLAGS L : Nat) : Int) := by
  show ((Nat.ldiff L LEVEL__FLAGS : Nat) : Int) = _
  congr 1
  apply Nat.eq_of_testBit_eq
  intro i
  unfold without_flags
  rw [Nat.testBit_ldiff, Nat.testBit_xor, Nat.testBit_and]
  cases L.testBit i <;> cases LEVEL__FLAGS.testBit i <;> rfl

theorem testBit_without_flags (LEVEL__FLAGS L : level_t) (i : Nat) :
    (without_flags LEVEL__FLAGS L).testBit i = (L.testBit i && !LEVEL__FLAGS.testBit i) := by
  unfold without_flags
  rw [Nat.testBit_xor, Nat.testBit_and]
  cases L.testBit i <;> cases LEVEL__FLAGS.testBit i <;> rfl

theorem matches_fst (LEVEL__FLAGS : level_t) (f : level_filter) (ll : logline) (line : String) :
    (f.matches LEVEL__FLAGS ll line).1 =
      decide (without_flags LEVEL__FLAGS ll.get_level < f.lf_min_level) := by
  unfold level_filter.matches
  simp only [land_not_eq_without_flags, Nat.cast_lt]

theorem without_flags_lor (LEVEL__FLAGS L F : level_t) (hF : F &&& LEVEL__FLAGS = F) :
    without_flags LEVEL__FLAGS (L ||| F) = without_flags LEVEL__FLAGS L := by
  apply Nat.eq_of_testBit_eq
  intro i
  have hi : (F.testBit i && LEVEL__FLAGS.testBit i) = F.testBit i := by
    rw [← Nat.testBit_and, hF]
  rw [testBit_without_flags, testBit_without_flags, Nat.testBit_or]
  revert hi
  cases L.testBit i <;> cases F.testBit i <;> cases LEVEL__FLAGS.testBit i <;> simp

theorem without_flags_idem (LEVEL__FLAGS L : level_t) :
    without_flags LEVEL__FLAGS (without_flags LEVEL__FLAGS L) = without_flags LEVEL__FLAGS L := by
  apply Nat.eq_of_testBit_eq
  intro i
  simp only [testBit_without_flags]
  cases L.testBit i <;> cases LEVEL__FLAGS.testBit i <;> rfl

theorem without_flags_sub (LEVEL__FLAGS L F : level_t) (hF : F &&& LEVEL__FLAGS = F) :
    without_flags LEVEL__FLAGS (without_flags F L) = without_flags LEVEL__FLAGS L := by
  apply Nat.eq_of_testBit_eq
  intro i
  have hi : (F.testBit i && LEVEL__FLAGS.testBit i) = F.testBit i := by
    rw [← Nat.testBit_and, hF]
  simp only [testBit_without_flags]
  revert hi
  cases L.testBit i <;> cases F.testBit i <;> cases LEVEL__FLAGS.testBit i <;> simp

/-! ## The level filter: claims -/

/-- C1: `level_filter::matches` returns true exactly when the record level with
the `LEVEL__FLAGS` bits cleared is strictly below the threshold; the cleared
level has exactly the bits of the level that are not flag bits; and under mode
EXCLUDE, which is the mode of every level filter, a record passes the filter
exactly when its masked severity is at or above the threshold. -/
theorem level_filter_matches_iff (LEVEL__FLAGS : level_t) (f : level_filter)
    (ll : logline) (line : String) :
    ((f.matches LEVEL__FLAGS ll line).1 = true ↔
        without_flags LEVEL__FLAGS ll.get_level < f.lf_min_level)
    ∧ (∀ i, (without_flags LEVEL__FLAGS ll.get_level).testBit i =
        (ll.get_level.testBit i && !LEVEL__FLAGS.testBit i))
    ∧ (f.mode = .EXCLUDE →
        (f.passes LEVEL__FLAGS ll line = true ↔
          f.lf_min_level ≤ without_flags LEVEL__FLAGS ll.get_level))
    ∧ (∀ LEVEL_UNKNOWN m : level_t,
        ({ level_filter.new LEVEL_UNKNOWN with lf_min_level := m }).passes
            LEVEL__FLAGS ll line = true ↔
          m ≤ without_flags LEVEL__FLAGS ll.get_level) := by
  refine ⟨?_, testBit_without_flags _ _, ?_, ?_⟩
  · rw [matches_fst]; simp
  · intro hmode
    unfold level_filter.passes
    rw [hmode]
    simp [matches_fst]
  · intro U m
    unfold level_filter.passes
    simp [level_filter.new, matches_fst]

/-- C1 at a concrete input: with flag bits 0xC0 and threshold 4, a record of
level 5 that carries flag bit 0x40 passes the filter. -/
theorem level_filter_matches_iff_witness :
    level_filter.passes 192 { mode := .EXCLUDE, id := "", lf_min_level := 4 }
      { ll_file := 0, ll_offset := 0, ll_time := none, ll_level := 69 } "error: disk" = true :=
  ((level_filter_matches_iff 192 { mode := .EXCLUDE, id := "", lf_min_level := 4 }
      { ll_file := 0, ll_offset := 0, ll_time := none, ll_level := 69 }
      "error: disk").2.2.1 rfl).2 (by decide)

/-- C2: flag bits never change the result of `level_filter::matches`: for a set
of bits `F` contained in `LEVEL__FLAGS`, a record of level `L | F` is matched
exactly when a record of level `L & ~LEVEL__FLAGS` is, exactly when a record of
level `L` is; and so is a record whose level is `L` with the bits `F` cleared. -/
theorem level_filter_matches_ignores_flags (LEVEL__FLAGS L F : level_t) (f : level_filter)
    (ll ll0 : logline) (line line0 : String) (hF : F &&& LEVEL__FLAGS = F)
    (hl : ll.get_level = L ||| F)
    (hl0 : (ll0.get_level : Int) = Int.land (L : Int) (~~~(LEVEL__FLAGS : Int))) :
    (f.matches LEVEL__FLAGS ll line).1 = (f.matches LEVEL__FLAGS ll0 line0).1
    ∧ (∀ (ll1 : logline) (line1 : String), ll1.get_level = L →
        (f.matches LEVEL__FLAGS ll line).1 = (f.matches LEVEL__FLAGS ll1 line1).1)
    ∧ (∀ (ll1 ll2 : logline) (line1 line2 : String), ll1.get_level = L →
        ll2.get_level = without_flags F L →
        (f.matches LEVEL__FLAGS ll2 line2).1 = (f.matches LEVEL__FLAGS ll1 line1).1) := by
  rw [land_not_eq_without_flags] at hl0
  have hl0n : ll0.get_level = without_flags LEVEL__FLAGS L := by exact_mod_cast hl0
  refine ⟨?_, ?_, ?_⟩
  · rw [matches_fst, matches_fst, hl, hl0n, without_flags_lor _ _ _ hF, without_flags_idem]
  · intro ll1 line1 h1
    rw [matches_fst, matches_fst, hl, h1, without_flags_lor _ _ _ hF]
  · intro ll1 ll2 line1 line2 h1 h2
    rw [matches_fst, matches_fst, h1, h2, without_flags_sub _ _ _ hF]

/-- C2 at a concrete input: with flag bits 0xC0 and threshold 4, a record of
level 3 with bit 0x80 set gets the same answer as a record of level 3. -/
theorem level_filter_matches_ignores_flags_witness :
    (level_filter.matches 192 { mode := .EXCLUDE, id := "", lf_min_level := 4 }
        { ll_file := 1, ll_offset := 10, ll_time := some 7, ll_level := 131 } "a").1 =
      (level_filter.matches 192 { mode := .EXCLUDE, id := "", lf_min_level := 4 }
        { ll_file := 2, ll_offset := 0, ll_time := none, ll_level := 3 } "b").1 :=
  (level_filter_matches_ignores_flags 192 3 128
    { mode := .EXCLUDE, id := "", lf_min_level := 4 }
    { ll_file := 1, ll_offset := 10, ll_time := some 7, ll_level := 131 }
    { ll_file := 2, ll_offset := 0, ll_time := none, ll_level := 3 } "a" "b"
    (by decide) (by decide)
    (by rw [land_not_eq_without_flags]; decide)).1

/-- C3: the result of `level_filter::matches` depends on the record only through
`get_level()`: two calls on records of equal level agree, whatever the line text
and the other attributes of the records; and the call leaves the filter as it
was. -/
theorem level_filter_matches_level_only (LEVEL__FLAGS : level_t) (f : level_filter)
    (ll ll2 : logline) (line line2 : String) (hlevel : ll.get_level = ll2.get_level) :
    (f.matches LEVEL__FLAGS ll line).1 = (f.matches LEVEL__FLAGS ll2 line2).1
    ∧ (f.matches LEVEL__FLAGS ll line).2 = f := by
  refine ⟨?_, rfl⟩
  rw [matches_fst, matches_fst, hlevel]

/-- C3 at a concrete input: two records of level 2 from different files, at
different offsets and times and with different text get the same answer. -/
theorem level_filter_matches_level_only_witness :
    (level_filter.matches 192 { mode := .EXCLUDE, id := "", lf_min_level := 4 }
        { ll_file := 1, ll_offset := 10, ll_time := some 7, ll_level := 2 } "first").1 =
      (level_filter.matches 192 { mode := .EXCLUDE, id := "", lf_min_level := 4 }
        { ll_file := 2, ll_offset := 0, ll_time := none, ll_level := 2 } "second").1 :=
  (level_filter_matches_level_only 192 { mode := .EXCLUDE, id := "", lf_min_level := 4 }
    { ll_file := 1, ll_offset := 10, ll_time := some 7, ll_level := 2 }
    { ll_file := 2, ll_offset := 0, ll_time := none, ll_level := 2 } "first" "second" rfl).1

/-- C4: a default-constructed `level_filter` has mode EXCLUDE, an empty id and
minimum level `LEVEL_UNKNOWN`, whatever the value of `LEVEL_UNKNOWN`; and when
`LEVEL_UNKNOWN` is 0 it matches no record, so every record passes it. -/
theorem level_filter_default_matches_nothing (LEVEL_UNKNOWN LEVEL__FLAGS : level_t)
    (ll : logline) (line : String) :
    (level_filter.new LEVEL_UNKNOWN).mode = .EXCLUDE
    ∧ (level_filter.new LEVEL_UNKNOWN).id = ""
    ∧ (level_filter.new LEVEL_UNKNOWN).lf_min_level = LEVEL_UNKNOWN
    ∧ (LEVEL_UNKNOWN = 0 →
        ((level_filter.new LEVEL_UNKNOWN).matches LEVEL__FLAGS ll line).1 = false
        ∧ (level_filter.new LEVEL_UNKNOWN).passes LEVEL__FLAGS ll line = true) := by
  refine ⟨rfl, rfl, rfl, ?_⟩
  intro hunknown
  subst hunknown
  refine ⟨?_, ?_⟩
  · rw [matches_fst]; simp [level_filter.new]
  · unfold level_filter.passes
    simp [level_filter.new, matches_fst]

/-- C4 at a concrete input: with `LEVEL_UNKNOWN = 0` the default filter does not
match a record of level 0 that carries both flag bits, and the record passes. -/
theorem level_filter_default_matches_nothing_witness :
    ((level_filter.new 0).matches 192
        { ll_file := 0, ll_offset := 0, ll_time := none, ll_level := 192 } "").1 = false
    ∧ (level_filter.new 0).passes 192
        { ll_file := 0, ll_offset := 0, ll_time := none, ll_level := 192 } "" = true :=
  (level_filter_default_matches_nothing 0 192
    { ll_file := 0, ll_offset := 0, ll_time := none, ll_level := 192 } "").2.2.2 rfl

/-- C9: when `LEVEL_UNKNOWN` is 0, a record of level `LEVEL_UNKNOWN`, with any
flag bits set on it, and more generally any record whose masked severity is
`LEVEL_UNKNOWN`, is matched at every threshold strictly above `LEVEL_UNKNOWN`;
and a record matched at a threshold is matched at every larger threshold. -/
theorem level_filter_unknown_is_lowest (LEVEL_UNKNOWN LEVEL__FLAGS : level_t)
    (f : level_filter) (ll : logline) (line : String) (hunknown : LEVEL_UNKNOWN = 0) :
    (∀ F : level_t, F &&& LEVEL__FLAGS = F → ll.get_level = LEVEL_UNKNOWN ||| F →
        LEVEL_UNKNOWN < f.lf_min_level → (f.matches LEVEL__FLAGS ll line).1 = true)
    ∧ (Int.land (ll.get_level : Int) (~~~(LEVEL__FLAGS : Int)) = (LEVEL_UNKNOWN : Int) →
        LEVEL_UNKNOWN < f.lf_min_level → (f.matches LEVEL__FLAGS ll line).1 = true)
    ∧ (∀ m m2 : level_t, m ≤ m2 →
        (level_filter.matches LEVEL__FLAGS { f with lf_min_level := m } ll line).1 = true →
        (level_filter.matches LEVEL__FLAGS { f with lf_min_level := m2 } ll line).1 = true) := by
  subst hunknown
  refine ⟨?_, ?_, ?_⟩
  · intro F hF hl hm
    have h0 : without_flags LEVEL__FLAGS ll.get_level = 0 := by
      rw [hl, without_flags_lor _ _ _ hF]
      simp [without_flags]
    rw [matches_fst, h0]
    simpa using hm
  · intro hl hm
    rw [land_not_eq_without_flags] at hl
    have h0 : without_flags LEVEL__FLAGS ll.get_level = 0 := by exact_mod_cast hl
    rw [matches_fst, h0]
    simpa using hm
  · intro m m2 hle
    simp only [matches_fst, decide_eq_true_eq]
    intro h
    exact lt_of_lt_of_le h hle

/-- C9 at a concrete input: a record of level 0 carrying flag bit 0x40 is
matched at threshold 1. -/
theorem level_filter_unknown_is_lowest_witness :
    (level_filter.matches 192 { mode := .EXCLUDE, id := "", lf_min_level := 1 }
        { ll_file := 0, ll_offset := 0, ll_time := none, ll_level := 64 } "").1 = true :=
  (level_filter_unknown_is_lowest 0 192 { mode := .EXCLUDE, id := "", lf_min_level := 1 }
    { ll_file := 0, ll_offset := 0, ll_time := none, ll_level := 64 } "" rfl).1
    64 (by decide) (by decide) (by decide)

/-- C10: for a threshold that is a valid index into `level_names`,
`level_filter::to_command` returns the string "set-min-log-level " followed by
the name of the threshold, and two filters whose thresholds have different
names produce different commands. -/
theorem level_filter_to_command_eq (level_names : List String) (f : level_filter)
    (hf : f.lf_min_level < level_names.length) :
    f.to_command level_names = some ("set-min-log-level " ++ level_names[f.lf_min_level])
    ∧ ∀ (g : level_filter) (hg : g.lf_min_level < level_names.length),
        level_names[f.lf_min_level] ≠ level_names[g.lf_min_level] →
        f.to_command level_names ≠ g.to_command level_names := by
  have key : ∀ (k : level_filter) (hk : k.lf_min_level < level_names.length),
      k.to_command level_names = some ("set-min-log-level " ++ level_names[k.lf_min_level]) := by
    intro k hk
    unfold level_filter.to_command
    rw [List.getElem?_eq_getElem hk]
  refine ⟨key f hf, ?_⟩
  intro g hg hne heq
  rw [key f hf, key g hg] at heq
  apply hne
  have h1 := congrArg String.data (Option.some.inj heq)
  simp only [String.data_append] at h1
  exact String.ext (List.append_cancel_left h1)

/-- C10 at a concrete input: with the names unknown, info, warning, error the
filter of threshold 2 gives the command for "warning". -/
theorem level_filter_to_command_eq_witness :
    level_filter.to_command ["unknown", "info", "warning", "error"]
        { mode := .EXCLUDE, id := "", lf_min_level := 2 } =
      some "set-min-log-level warning" :=
  (level_filter_to_command_eq ["unknown", "info", "warning", "error"]
    { mode := .EXCLUDE, id := "", lf_min_level := 2 } (by decide)).1


/-! ## Views and slots -/

theorem slot?_eq_some (view : lnav_view_t) (i : Fin lnav_view_t.LNV__MAX.toNat)
    (h : view.slot? = some i) : i.val = view.toNat ∧ view ≠ .LNV__MAX := by
  unfold lnav_view_t.slot? at h
  split at h
  · cases h
    refine ⟨rfl, ?_⟩
    rintro rfl
    simp at *
  · cases h

theorem slot?_inj (v w : lnav_view_t) (i : Fin lnav_view_t.LNV__MAX.toNat)
    (hv : v.slot? = some i) (hw : w.slot? = some i) : v = w := by
  have h1 := (slot?_eq_some v i hv).1
  have h2 := (slot?_eq_some w i hw).1
  rw [h1] at h2
  cases v <;> cases w <;> first | rfl | (simp [lnav_view_t.toNat] at h2)

theorem slot?_of_ne_max (view : lnav_view_t) (h : view ≠ .LNV__MAX) :
    ∃ i, view.slot? = some i := by
  cases view <;> first | exact absurd rfl h | exact ⟨_, rfl⟩

theorem slot?_surj (i : Fin lnav_view_t.LNV__MAX.toNat) : ∃ view : lnav_view_t, view.slot? = some i := by
  obtain ⟨n, hn⟩ := i
  have hn8 : n < 8 := hn
  interval_cases n
  · exact ⟨.LNV_LOG, rfl⟩
  · exact ⟨.LNV_TEXT, rfl⟩
  · exact ⟨.LNV_HELP, rfl⟩
  · exact ⟨.LNV_HISTOGRAM, rfl⟩
  · exact ⟨.LNV_GRAPH, rfl⟩
  · exact ⟨.LNV_DB, rfl⟩
  · exact ⟨.LNV_EXAMPLE, rfl⟩
  · exact ⟨.LNV_SCHEMA, rfl⟩


/-! ## Search dispatch: the registry and the slots stay in step -/

theorem live_jobs_le_one (s : search_session) (hs : search_consistent s)
    (view : lnav_view_t) : live_jobs s view ≤ 1 := by
  unfold live_jobs
  by_cases hmax : view = .LNV__MAX
  · subst hmax
    have hnil : s.live.filter (fun j => j.view == lnav_view_t.LNV__MAX) = [] := by
      rw [List.filter_eq_nil_iff]
      intro j hj
      simpa using hs.2.1 j hj
    rw [hnil]
    simp
  · obtain ⟨i, hi⟩ := slot?_of_ne_max view hmax
    rw [hs.1 view i hi]
    cases s.ld.ld_search_child i <;> simp

theorem mem_live_iff_slot (s : search_session) (hs : search_consistent s)
    (view : lnav_view_t) (i : Fin lnav_view_t.LNV__MAX.toNat) (hi : view.slot? = some i)
    (j : grep_highlighter) :
    (j ∈ s.live ∧ j.view = view) ↔ s.ld.ld_search_child i = some j := by
  have hview := hs.1 view i hi
  have hmem : (j ∈ s.live ∧ j.view = view) ↔
      j ∈ s.live.filter (fun j => j.view == view) := by
    simp [List.mem_filter]
  rw [hmem, hview]
  cases s.ld.ld_search_child i <;> simp [eq_comm]

theorem cancel_search_consistent (s : search_session) (hs : search_consistent s)
    (view : lnav_view_t) (i : Fin lnav_view_t.LNV__MAX.toNat) (hi : view.slot? = some i) :
    search_consistent (cancel_search s i)
    ∧ (cancel_search s i).ld.ld_search_child i = none
    ∧ (cancel_search s i).next_child = s.next_child
    ∧ (∀ old ∈ s.live, old.view = view →
        ∀ j ∈ (cancel_search s i).live, j.child ≠ old.child) := by
  have hslotmem := mem_live_iff_slot s hs view i hi
  obtain ⟨hA, hB, hC, hD⟩ := hs
  cases hslot : s.ld.ld_search_child i with
  | none =>
    have hc : cancel_search s i = s := by
      unfold cancel_search
      rw [hslot]
    rw [hc]
    refine ⟨⟨hA, hB, hC, hD⟩, hslot, rfl, ?_⟩
    intro old hold hv
    have hsome := (hslotmem old).1 ⟨hold, hv⟩
    rw [hslot] at hsome
    cases hsome
  | some job =>
    have hc : cancel_search s i =
        { s with
          ld := { s.ld with ld_search_child := Function.update s.ld.ld_search_child i none }
          live := s.live.filter (fun j => j.child != job.child) } := by
      unfold cancel_search
      rw [hslot]
    have hjob : job ∈ s.live ∧ job.view = view := (hslotmem job).2 hslot
    have hinj := List.inj_on_of_nodup_map hD
    rw [hc]
    refine ⟨⟨?_, ?_, ?_, ?_⟩, ?_, rfl, ?_⟩
    · intro v k hk
      show (s.live.filter (fun j => j.child != job.child)).filter (fun j => j.view == v) =
        (Function.update s.ld.ld_search_child i none k).toList
      by_cases hki : k = i
      · subst hki
        have hv : v = view := slot?_inj v view k hk hi
        subst hv
        rw [Function.update_same]
        show List.filter _ _ = []
        rw [List.filter_eq_nil_iff]
        intro j hj hjv
        rw [List.mem_filter] at hj
        have hjv2 : j.view = v := by simpa using hjv
        have hsome := (hslotmem j).1 ⟨hj.1, hjv2⟩
        rw [hslot] at hsome
        cases hsome
        simp at hj
      · rw [Function.update_noteq hki, ← hA v k hk, List.filter_filter]
        apply List.filter_congr
        intro j hj
        by_cases hjv : j.view = v
        · have hne : j.child ≠ job.child := by
            intro hch
            have hjj : j = job := hinj hj hjob.1 hch
            apply hki
            have hv : v = view := by rw [← hjv, hjj, hjob.2]
            subst hv
            rw [hk] at hi
            exact Option.some.inj hi
          simp [hjv, hne]
        · simp [hjv]
    · intro j hj
      exact hB j (List.mem_of_mem_filter hj)
    · intro j hj
      exact hC j (List.mem_of_mem_filter hj)
    · exact hD.sublist ((List.filter_sublist _).map _)
    · show Function.update s.ld.ld_search_child i none i = none
      rw [Function.update_same]
    · intro old hold hv j hj
      have hsome := (hslotmem old).1 ⟨hold, hv⟩
      rw [hslot] at hsome
      have hoj : job = old := Option.some.inj hsome
      rw [← hoj]
      have hj2 : j ∈ s.live.filter (fun j => j.child != job.child) := hj
      rw [List.mem_filter] at hj2
      simpa using hj2.2


theorem spawn_search_consistent (s : search_session) (hs : search_consistent s)
    (view : lnav_view_t) (i : Fin lnav_view_t.LNV__MAX.toNat) (hi : view.slot? = some i)
    (hnone : s.ld.ld_search_child i = none) (regex : String) :
    search_consistent (spawn_search s view i regex)
    ∧ live_jobs (spawn_search s view i regex) view = 1
    ∧ (∀ j ∈ (spawn_search s view i regex).live, j ∈ s.live ∨ j.child = s.next_child) := by
  obtain ⟨hA, hB, hC, hD⟩ := hs
  have hviewnil : s.live.filter (fun j => j.view == view) = [] := by
    rw [hA view i hi, hnone]
    rfl
  refine ⟨⟨?_, ?_, ?_, ?_⟩, ?_, ?_⟩
  · intro v k hk
    by_cases hki : k = i
    · subst hki
      have hv : v = view := slot?_inj v view k hk hi
      subst hv
      simp only [spawn_search, Function.update_same]
      rw [List.filter_cons_of_pos (by simp), hviewnil]
      rfl
    · have hv : v ≠ view := by
        intro hv
        subst hv
        rw [hk] at hi
        exact hki (Option.some.inj hi)
      simp only [spawn_search, Function.update_noteq hki]
      rw [List.filter_cons_of_neg (by simpa using Ne.symm hv)]
      exact hA v k hk
  · intro j hj
    simp only [spawn_search, List.mem_cons] at hj
    rcases hj with rfl | hj
    · exact (slot?_eq_some view i hi).2
    · exact hB j hj
  · intro j hj
    simp only [spawn_search, List.mem_cons] at hj
    rcases hj with rfl | hj
    · exact Nat.lt_succ_self _
    · exact Nat.lt_succ_of_lt (hC j hj)
  · simp only [spawn_search, List.map_cons, List.nodup_cons]
    refine ⟨?_, hD⟩
    intro hmem
    rw [List.mem_map] at hmem
    obtain ⟨j, hj, hjc⟩ := hmem
    have hlt := hC j hj
    rw [hjc] at hlt
    exact Nat.lt_irrefl _ hlt
  · simp only [live_jobs, spawn_search]
    rw [List.filter_cons_of_pos (by simp), hviewnil]
    rfl
  · intro j hj
    simp only [spawn_search, List.mem_cons] at hj
    rcases hj with rfl | hj
    · exact Or.inr rfl
    · exact Or.inl hj

theorem execute_search_consistent (compiles : String → Bool) (s : search_session)
    (hs : search_consistent s) (view : lnav_view_t) (regex : String)
    (hview : view ≠ .LNV__MAX) :
    ∃ s1 st, execute_search compiles s view regex = some (s1, st) ∧ search_consistent s1 := by
  obtain ⟨i, hi⟩ := slot?_of_ne_max view hview
  obtain ⟨hcons, hnone, _, _⟩ := cancel_search_consistent s hs view i hi
  unfold execute_search
  rw [hi]
  by_cases hempty : regex = ""
  · refine ⟨cancel_search s i, .ok, ?_, hcons⟩
    simp only [hempty, if_true]
  · by_cases hcomp : compiles regex = true
    · refine ⟨spawn_search (cancel_search s i) view i regex, .ok, ?_,
        (spawn_search_consistent _ hcons view i hi hnone regex).1⟩
      simp only [hempty, hcomp, if_true, if_false]
    · refine ⟨cancel_search s i, .InvalidPattern, ?_, hcons⟩
      simp [hempty, hcomp]

theorem execute_searches_consistent (compiles : String → Bool)
    (calls : List (lnav_view_t × String)) :
    ∀ s : search_session, search_consistent s → (∀ c ∈ calls, c.1 ≠ lnav_view_t.LNV__MAX) →
      ∃ s1, execute_searches compiles s calls = some s1 ∧ search_consistent s1 := by
  induction calls with
  | nil =>
    intro s hs _
    exact ⟨s, rfl, hs⟩
  | cons c rest ih =>
    intro s hs hcalls
    obtain ⟨view, regex⟩ := c
    obtain ⟨s1, st, hexec, hs1⟩ :=
      execute_search_consistent compiles s hs view regex (hcalls (view, regex) (List.mem_cons_self _ _))
    obtain ⟨s2, hrest, hs2⟩ := ih s1 hs1 (fun c hc => hcalls c (List.mem_cons_of_mem _ hc))
    refine ⟨s2, ?_, hs2⟩
    simp only [execute_searches, hexec]
    exact hrest

theorem startup_consistent (ld : _lnav_data) : search_consistent (search_session.startup ld) := by
  refine ⟨?_, ?_, ?_, ?_⟩
  · intro v k _
    rfl
  · intro j hj
    cases hj
  · intro j hj
    cases hj
  · exact List.nodup_nil

/-! ## Search dispatch: claim -/

/-- C5: at most one highlight job is live per view.  A session at startup has
no live job; from any session in which the registry of live jobs and the search
slots agree, every sequence of `execute_search` calls on view kinds runs to a
session in which they agree again and every view has at most one live job, in
particular every sequence of calls from startup; and `execute_search` with a
non-empty pattern that compiles, issued while a job is live for the view,
leaves exactly one live job for the view, the process of the old job being no
longer live. -/
theorem execute_search_one_live_job (compiles : String → Bool) :
    (∀ ld : _lnav_data, search_consistent (search_session.startup ld)
        ∧ ∀ view, live_jobs (search_session.startup ld) view = 0)
    ∧ (∀ (s : search_session) (calls : List (lnav_view_t × String)),
        search_consistent s → (∀ c ∈ calls, c.1 ≠ lnav_view_t.LNV__MAX) →
        ∃ s1, execute_searches compiles s calls = some s1 ∧ search_consistent s1
          ∧ ∀ view, live_jobs s1 view ≤ 1)
    ∧ (∀ (ld : _lnav_data) (calls : List (lnav_view_t × String)),
        (∀ c ∈ calls, c.1 ≠ lnav_view_t.LNV__MAX) →
        ∃ s1, execute_searches compiles (search_session.startup ld) calls = some s1
          ∧ ∀ view, live_jobs s1 view ≤ 1)
    ∧ (∀ (s : search_session) (view : lnav_view_t) (regex : String) (old : grep_highlighter),
        search_consistent s → view ≠ lnav_view_t.LNV__MAX → regex ≠ "" →
        compiles regex = true → old ∈ s.live → old.view = view →
        ∃ s1, execute_search compiles s view regex = some (s1, search_status.ok)
          ∧ live_jobs s1 view = 1 ∧ ∀ j ∈ s1.live, j.child ≠ old.child) := by
  refine ⟨fun ld => ⟨startup_consistent ld, fun _ => rfl⟩, ?_, ?_, ?_⟩
  · intro s calls hs hcalls
    obtain ⟨s1, hrun, hs1⟩ := execute_searches_consistent compiles calls s hs hcalls
    exact ⟨s1, hrun, hs1, live_jobs_le_one s1 hs1⟩
  · intro ld calls hcalls
    obtain ⟨s1, hrun, hs1⟩ :=
      execute_searches_consistent compiles calls _ (startup_consistent ld) hcalls
    exact ⟨s1, hrun, live_jobs_le_one s1 hs1⟩
  · intro s view regex old hs hview hregex hcomp hold holdview
    obtain ⟨i, hi⟩ := slot?_of_ne_max view hview
    obtain ⟨hcons, hnone, hnext, hgone⟩ := cancel_search_consistent s hs view i hi
    obtain ⟨_, hone, hlive⟩ := spawn_search_consistent _ hcons view i hi hnone regex
    refine ⟨spawn_search (cancel_search s i) view i regex, ?_, hone, ?_⟩
    · unfold execute_search
      rw [hi]
      simp only [hregex, hcomp, if_true, if_false]
    · intro j hj
      rcases hlive j hj with hj1 | hj1
      · exact hgone old hold holdview j hj1
      · rw [hj1, hnext]
        exact Nat.ne_of_gt (hs.2.2.1 old hold)


/-- C5 at a concrete input: two searches in a row on the log view, from
startup, leave at most one live job for every view. -/
theorem execute_search_one_live_job_witness :
    ∃ s1, execute_searches (fun _ => true) (search_session.startup (lnav_data_with_stack [0]))
        [(lnav_view_t.LNV_LOG, "ERROR"), (lnav_view_t.LNV_LOG, "WARN")] = some s1
      ∧ search_consistent s1 ∧ ∀ view, live_jobs s1 view ≤ 1 :=
  (execute_search_one_live_job (fun _ => true)).2.1 _ _
    ((execute_search_one_live_job (fun _ => true)).1 _).1 (by decide)

/-- A run of the search dispatch: a second search on the log view replaces the
job of the first. -/
theorem execute_searches_replaces_job :
    (execute_searches (fun _ => true) (search_session.startup (lnav_data_with_stack [0]))
        [(lnav_view_t.LNV_LOG, "ERROR"), (lnav_view_t.LNV_LOG, "WARN")]).map
        (fun s => (live_jobs s .LNV_LOG, s.live.map (fun j => (j.pattern, j.child)))) =
      some (1, [("WARN", 1)]) := by
  decide

/-- A run of the search dispatch: a pattern that does not compile cancels the
job of the log view and spawns none; the job of the text view is untouched. -/
theorem execute_searches_invalid_pattern :
    (execute_searches (fun p => p != "(") (search_session.startup (lnav_data_with_stack [0]))
        [(lnav_view_t.LNV_LOG, "ERROR"), (lnav_view_t.LNV_TEXT, "x"),
         (lnav_view_t.LNV_LOG, "(")]).map
        (fun s => (live_jobs s .LNV_LOG, s.live.map (fun j => (j.pattern, j.child)))) =
      some (0, [("x", 1)]) := by
  decide

/-! ## View focus: claim -/

theorem toggle_view_eq_none_iff (ld : _lnav_data) (toggle_tc : textview_ptr) :
    toggle_view ld toggle_tc = none ↔
      ld.ld_view_stack = [] ∨ ld.ld_view_stack = [toggle_tc] := by
  unfold toggle_view
  cases hstack : ld.ld_view_stack with
  | nil => simp
  | cons tc rest =>
    cases rest with
    | nil =>
      by_cases htc : tc = toggle_tc
      · simp [htc]
      · simp [htc]
    | cons next rest2 =>
      by_cases htc : tc = toggle_tc
      · simp [htc]
      · simp [htc]

theorem toggle_view_some_ne_nil (ld ld1 : _lnav_data) (toggle_tc : textview_ptr)
    (h : toggle_view ld toggle_tc = some ld1) : ld1.ld_view_stack ≠ [] := by
  unfold toggle_view at h
  cases hstack : ld.ld_view_stack with
  | nil =>
    rw [hstack] at h
    cases h
  | cons tc rest =>
    rw [hstack] at h
    cases rest with
    | nil =>
      by_cases htc : tc = toggle_tc
      · simp [htc] at h
      · simp only [htc, if_false, Option.some.injEq] at h
        rw [← h]
        simp
    | cons next rest2 =>
      by_cases htc : tc = toggle_tc
      · simp only [htc, if_true, Option.some.injEq] at h
        rw [← h]
        simp
      · simp only [htc, if_false, Option.some.injEq] at h
        rw [← h]
        simp

/-- Whatever a reading of `toggle_view` does in the cases the model leaves open,
it keeps the stack non-empty through every sequence of toggles exactly when it
does not empty a stack of one view by toggling that view. -/
theorem reading_never_empty_iff
    (tv : List textview_ptr → textview_ptr → List textview_ptr)
    (hreading : reading_of_toggle_view tv) :
    (∀ (stack : List textview_ptr) (calls : List textview_ptr),
        stack ≠ [] → calls.foldl tv stack ≠ [])
      ↔ ∀ v : textview_ptr, tv [v] v ≠ [] := by
  constructor
  · intro h v
    exact h [v] [v] (by simp)
  · intro hsole stack calls
    induction calls generalizing stack with
    | nil =>
      intro hne
      exact hne
    | cons c cs ih =>
      intro hne
      apply ih
      by_cases hs : stack = [c]
      · rw [hs]
        exact hsole c
      · cases hstep : toggle_view (lnav_data_with_stack stack) c with
        | none =>
          rcases (toggle_view_eq_none_iff _ c).1 hstep with h | h
          · exact absurd h hne
          · exact absurd h hs
        | some ld1 =>
          have heq := hreading (lnav_data_with_stack stack) ld1 c hstep
          have hne1 := toggle_view_some_ne_nil _ ld1 c hstep
          have heq2 : tv stack c = ld1.ld_view_stack := heq
          rw [heq2]
          exact hne1

/-- Both total readings agree with the model of `toggle_view` wherever the
model has a result. -/
theorem toggle_stack_reading (keep_last : Bool) :
    reading_of_toggle_view (toggle_stack keep_last) := by
  intro ld ld1 toggle_tc h
  unfold toggle_view at h
  unfold toggle_stack
  cases hstack : ld.ld_view_stack with
  | nil =>
    rw [hstack] at h
    cases h
  | cons tc rest =>
    rw [hstack] at h
    cases rest with
    | nil =>
      by_cases htc : tc = toggle_tc
      · simp [htc] at h
      · simp only [htc, if_false, Option.some.injEq] at h
        rw [← h]
        simp [htc]
    | cons next rest2 =>
      by_cases htc : tc = toggle_tc
      · simp only [htc, if_true, Option.some.injEq] at h
        rw [← h]
        simp [htc]
      · simp only [htc, if_false, Option.some.injEq] at h
        rw [← h]
        simp [htc]

/-- The reading that keeps the last view never leaves the stack empty, but it
does not pop the only view of a stack; the reading that pops it empties the
stack. -/
theorem toggle_stack_readings_differ :
    (∀ (stack : List textview_ptr) (calls : List textview_ptr),
        stack ≠ [] → calls.foldl (toggle_stack true) stack ≠ [])
    ∧ toggle_stack true [0] 0 = [0]
    ∧ toggle_stack false [0] 0 = [] := by
  refine ⟨?_, rfl, rfl⟩
  rw [reading_never_empty_iff (toggle_stack true) (toggle_stack_reading true)]
  intro v
  simp [toggle_stack]

/-- A run of toggles from the stack that holds view 0 alone: push 1, push 0. -/
theorem toggle_views_run_push_push :
    (toggle_views (lnav_data_with_stack [0]) [1, 0]).map (fun ld => ld.ld_view_stack) =
      some [0, 1, 0] := by
  decide

/-- A run of toggles from the stack that holds view 0 alone: push 3, pop 3,
push 1, push 3. -/
theorem toggle_views_run :
    (toggle_views (lnav_data_with_stack [0]) [3, 3, 1, 3]).map (fun ld => ld.ld_view_stack) =
      some [3, 1, 0] := by
  decide

/-! ## Modes and views: claims -/

/-- C7: `ln_mode_t` has exactly the five values PAGING, COMMAND, SEARCH,
CAPTURE and SQL, pairwise distinct and numbered 0 to 4; the session record holds
one mode value; and `LNM_PAGING` is the mode of numeric value 0, so a record
whose stored mode is zero is in PAGING. -/
theorem ln_mode_t_five_values_paging_zero :
    (∀ m : ln_mode_t, m = .LNM_PAGING ∨ m = .LNM_COMMAND ∨ m = .LNM_SEARCH
        ∨ m = .LNM_CAPTURE ∨ m = .LNM_SQL)
    ∧ (∀ m : ln_mode_t, m ∈ ln_mode_t.enumerators)
    ∧ ln_mode_t.enumerators.Nodup
    ∧ ln_mode_t.enumerators.length = 5
    ∧ ln_mode_t.enumerators.map ln_mode_t.toNat = [0, 1, 2, 3, 4]
    ∧ (∀ m n : ln_mode_t, m.toNat = n.toNat → m = n)
    ∧ (∀ ld : _lnav_data, ∃! m : ln_mode_t, ld.ld_mode = m)
    ∧ ln_mode_t.LNM_PAGING.toNat = 0
    ∧ ln_mode_t.ofNat? 0 = some .LNM_PAGING
    ∧ (∀ ld : _lnav_data, ld.ld_mode.toNat = 0 ↔ ld.ld_mode = .LNM_PAGING) := by
  refine ⟨?_, ?_, by decide, rfl, rfl, ?_, ?_, rfl, rfl, ?_⟩
  · intro m; cases m <;> simp
  · intro m; cases m <;> decide
  · intro m n; cases m <;> cases n <;> simp [ln_mode_t.toNat]
  · intro ld; exact ⟨ld.ld_mode, rfl, fun _ h => h.symm⟩
  · intro ld; cases ld.ld_mode <;> simp [ln_mode_t.toNat]

/-- C8: `lnav_view_t` names exactly eight view kinds, with pairwise distinct
indices 0 to 7, followed by `LNV__MAX = 8`; every view kind has an index below
`LNV__MAX` and so selects a slot of a per-view array, different kinds select
different slots, every slot belongs to a kind, and the per-view arrays of the
session record have exactly `LNV__MAX` slots. -/
theorem lnav_view_t_eight_kinds_one_slot_each :
    lnav_view_t.kinds.length = 8
    ∧ lnav_view_t.kinds.Nodup
    ∧ (∀ v : lnav_view_t, v ∈ lnav_view_t.kinds ↔ v ≠ .LNV__MAX)
    ∧ lnav_view_t.kinds.map lnav_view_t.toNat = [0, 1, 2, 3, 4, 5, 6, 7]
    ∧ lnav_view_t.LNV__MAX.toNat = 8
    ∧ (∀ v ∈ lnav_view_t.kinds, v.toNat < lnav_view_t.LNV__MAX.toNat)
    ∧ (∀ v w : lnav_view_t, v.toNat = w.toNat → v = w)
    ∧ (∀ v ∈ lnav_view_t.kinds, ∃ i, v.slot? = some i ∧ i.val = v.toNat)
    ∧ (∀ v ∈ lnav_view_t.kinds, ∀ w ∈ lnav_view_t.kinds, v.slot? = w.slot? → v = w)
    ∧ (∀ i : Fin lnav_view_t.LNV__MAX.toNat, ∃ v ∈ lnav_view_t.kinds, v.slot? = some i)
    ∧ lnav_view_t.LNV__MAX.slot? = none
    ∧ (∀ ld : _lnav_data,
        (List.ofFn ld.ld_views).length = lnav_view_t.LNV__MAX.toNat
        ∧ (List.ofFn ld.ld_search_child).length = lnav_view_t.LNV__MAX.toNat
        ∧ (List.ofFn ld.ld_last_search).length = lnav_view_t.LNV__MAX.toNat) := by
  refine ⟨rfl, by decide, ?_, rfl, rfl, by decide, ?_, ?_, ?_, ?_, rfl, ?_⟩
  · intro v; cases v <;> decide
  · intro v w; cases v <;> cases w <;> simp [lnav_view_t.toNat]
  · intro v hv
    have hne : v ≠ .LNV__MAX := by rintro rfl; revert hv; decide
    obtain ⟨i, hi⟩ := slot?_of_ne_max v hne
    exact ⟨i, hi, (slot?_eq_some v i hi).1⟩
  · intro v hv w _ h
    have hne : v ≠ .LNV__MAX := by rintro rfl; revert hv; decide
    obtain ⟨i, hi⟩ := slot?_of_ne_max v hne
    exact slot?_inj v w i hi (h ▸ hi)
  · intro i
    obtain ⟨v, hv⟩ := slot?_surj i
    refine ⟨v, ?_, hv⟩
    have hne := (slot?_eq_some v i hv).2
    revert hne
    cases v <;> decide
  · intro ld
    simp [lnav_view_t.toNat]

end Lnav
